import Mathlib

/-!
# Verification of the CTRL content-rewriting reverse proxy

A shallow embedding of the proxy engine of
`leraptor65/centralizedtransmissionandremoteloading`, covering the URL
masking codec, the response transformer, the blocklist filter, the
configuration store, and the request-entry loop check; theorems about
them settle the behavioural claims of the specification.

Go strings are modelled as `List Char`; the Go standard-library string
helpers the code calls (`strings.Split`, `strings.Join`,
`strings.TrimPrefix`, `strings.ReplaceAll`, `strings.Contains`,
`strings.HasPrefix`, `strings.HasSuffix`, `strings.Cut`,
`strings.LastIndex`) are given exact executable models below.
-/

/-- Go strings, modelled as lists of characters. -/
abbrev Str := List Char

/-- `strings.Split s [c]`: split `s` at every occurrence of `c`.
Never returns the empty list; `goSplit c [] = [[]]`, matching Go. -/
def goSplit (c : Char) : Str → List Str
  | [] => [[]]
  | x :: xs =>
    match goSplit c xs with
    | [] => if x = c then [[], []] else [[x]]
    | s :: ss => if x = c then [] :: s :: ss else (x :: s) :: ss

/-- `strings.Join parts [c]`: interleave the separator `c`. -/
def goJoin (c : Char) : List Str → Str
  | [] => []
  | [s] => s
  | s :: ss => s ++ c :: goJoin c ss

/-- `strings.Contains s pat`: `pat` occurs as a contiguous substring of `s`. -/
def containsSub (s pat : Str) : Bool :=
  if pat.isPrefixOf s then true
  else
    match s with
    | [] => false
    | _ :: rest => containsSub rest pat

/-- `strings.ReplaceAll s "//" "/"`: single left-to-right non-overlapping
pass replacing each occurrence of two slashes by one, exactly as Go's
`strings.ReplaceAll` does (so `"///"` becomes `"//"`, not `"/"`). -/
def collapseSlash : Str → Str
  | [] => []
  | [x] => [x]
  | x :: y :: rest =>
    if x = '/' ∧ y = '/' then '/' :: collapseSlash rest
    else x :: collapseSlash (y :: rest)

/-- `strings.Contains s "//"`: `s` has two adjacent slashes. -/
def hasDoubleSlash : Str → Bool
  | [] => false
  | [_] => false
  | x :: y :: rest =>
    if x = '/' ∧ y = '/' then true else hasDoubleSlash (y :: rest)

/-- `strings.HasSuffix s suffix`. -/
def goHasSuffix (s suffix : Str) : Bool := suffix.isSuffixOf s

namespace CtrlProxy

/-- The reserved masking prefix, `proxyHostPrefix` in `backend/proxy.go`
and `proxyHostPrefix` in `app.js`. -/
def proxyHostPrefix : Str := "/--proxy-host--/".toList

/-- The proxy origin computed at the top of `newProxyHandler`
(`backend/proxy.go` lines 50-54): `http://` + inbound host, or
`https://` when the inbound connection carried TLS. -/
def mkProxyOrigin (tls : Bool) (proxyHost : Str) : Str :=
  (if tls then "https://".toList else "http://".toList) ++ proxyHost

/-- The masked (proxy-visible) URL format produced by the response
transformer: `proxyOrigin + proxyHostPrefix + host + path` followed by
`?query` when the query is nonempty.  This is the `fmt.Sprintf`
of `backend/proxy.go` lines 163-166 (redirect interception) and
lines 229-234 (the `rewrite` closure); `app.js` lines 321 and 360 use
the identical format. -/
def encodeMasked (proxyOrigin host path rawQuery : Str) : Str :=
  proxyOrigin ++ proxyHostPrefix ++ host ++ path ++
    (if rawQuery.isEmpty then [] else '?' :: rawQuery)

/-- Decoding of an inbound masked request path, `backend/proxy.go`
lines 59-75: if the path carries `proxyHostPrefix`, strip it, read the
first `/`-separated segment as the origin host, rejoin the remaining
segments as the path, and collapse double slashes
(`strings.ReplaceAll(newPath, "//", "/")`).  Returns `none` when the
path is not in masked form (the handler then uses the configured
target). -/
def decodeTarget (reqPath : Str) : Option (Str × Str) :=
  if proxyHostPrefix.isPrefixOf reqPath then
    match goSplit '/' (reqPath.drop proxyHostPrefix.length) with
    | [] => none
    | host :: t => some (host, collapseSlash ('/' :: goJoin '/' t))
  else none

end CtrlProxy

-- ## Basic lemmas about the Go string helpers

theorem goSplit_ne_nil (c : Char) (s : Str) : goSplit c s ≠ [] := by
  cases s with
  | nil => simp [goSplit]
  | cons x xs =>
    simp only [goSplit]
    split <;> split <;> simp

theorem goJoin_goSplit (c : Char) (s : Str) : goJoin c (goSplit c s) = s := by
  induction s with
  | nil => rfl
  | cons x xs ih =>
    simp only [goSplit]
    cases h : goSplit c xs with
    | nil => exact absurd h (goSplit_ne_nil c xs)
    | cons s ss =>
      rw [h] at ih
      by_cases hx : x = c
      · subst hx
        simp only [if_pos rfl, goJoin]
        cases ss with
        | nil => simp [goJoin] at ih ⊢; simpa using ih
        | cons a as => simp [goJoin] at ih ⊢; simpa using ih
      · simp only [if_neg hx]
        cases ss with
        | nil => simp [goJoin] at ih ⊢; simpa using ih
        | cons a as => simp [goJoin] at ih ⊢; simpa using ih

theorem goSplit_append_sep (c : Char) (A rest : Str) (hA : c ∉ A) :
    goSplit c (A ++ c :: rest) = A :: goSplit c rest := by
  induction A with
  | nil =>
    simp only [List.nil_append, goSplit]
    cases h : goSplit c rest with
    | nil => exact absurd h (goSplit_ne_nil c rest)
    | cons s ss => simp
  | cons a as ih =>
    have ha : a ≠ c := by
      intro h; exact hA (h ▸ List.mem_cons_self a as)
    have has : c ∉ as := fun h => hA (List.mem_cons_of_mem a h)
    rw [List.cons_append, goSplit, ih has]
    simp [ha]

theorem collapseSlash_of_no_double :
    ∀ (s : Str), hasDoubleSlash s = false → collapseSlash s = s
  | [], _ => rfl
  | [_], _ => rfl
  | x :: y :: rest, h => by
    rw [hasDoubleSlash] at h
    rw [collapseSlash]
    by_cases hxy : x = '/' ∧ y = '/'
    · rw [if_pos hxy] at h; exact absurd h (by simp)
    · rw [if_neg hxy] at h
      rw [if_neg hxy, collapseSlash_of_no_double (y :: rest) h]

theorem containsSub_of_middle (a pat b : Str) :
    containsSub (a ++ pat ++ b) pat = true := by
  induction a with
  | nil =>
    unfold containsSub
    have : pat.isPrefixOf (pat ++ b) = true := by
      rw [List.isPrefixOf_iff_prefix]; exact List.prefix_append pat b
    simp [this]
  | cons x xs ih =>
    unfold containsSub
    split
    · rfl
    · simpa using ih

-- ## Configuration store (`backend/config.go`)

namespace CtrlProxy

/-- `HistoryItem` from `backend/config.go`. -/
structure HistoryItem where
  url : Str
  timestamp : Int
  deriving DecidableEq, Repr

/-- `Cookie` from `backend/config.go`. -/
structure Cookie where
  name : Str
  value : Str
  domain : Str
  path : Str
  deriving DecidableEq, Repr

/-- `Config` from `backend/config.go`.  The `scaleFactor` field
(a Go `float64`) is carried by no claim verified here and is omitted;
every other field is modelled. -/
structure Config where
  targetURL : Str
  autoScroll : Bool
  scrollSpeed : Int
  scrollSequence : Str
  history : List HistoryItem
  lastModified : Int
  cookieJar : List Cookie
  deriving DecidableEq, Repr

/-- The default configuration built in `initConfig`
(`backend/config.go` lines 70-78); `t0` is the process start time
(`time.Now().UnixMilli()`). -/
def defaultConfig (t0 : Int) : Config :=
  { targetURL := "https://github.com/leraptor65/centralizedtransmissionandremoteloading".toList
    autoScroll := false
    scrollSpeed := 50
    scrollSequence := []
    history := []
    lastModified := t0
    cookieJar := [] }

/-- `UpdateConfig` from `backend/config.go` lines 155-195, with the two
impure inputs passed explicitly: `now` is `time.Now().UnixMilli()` and
`writeOk` is the outcome of the `os.WriteFile` performed by
`saveConfigInternal` (lines 197-203).  Returns the new in-memory
`config` together with the returned error (`some ()` when the durable
write failed).  Mirrors the source exactly: the history is recomputed
only when the submitted `targetUrl` is nonempty and differs from the
stored one (prepend a new item, drop existing items with the same URL,
cap at 20); `lastModified` is always set to `now`; the in-memory
`config` is assigned *before* `saveConfigInternal` runs, so it is the
new value even when the write fails. -/
def UpdateConfig (now : Int) (writeOk : Bool) (st newConfig : Config) :
    Config × Option Unit :=
  ({ (if newConfig.targetURL ≠ [] ∧ newConfig.targetURL ≠ st.targetURL then
        { newConfig with
          history :=
            (fun newHistory =>
              if newHistory.length > 20 then newHistory.take 20 else newHistory)
              ({ url := newConfig.targetURL, timestamp := now } ::
                st.history.filter (fun item => item.url ≠ newConfig.targetURL)) }
      else newConfig) with
     lastModified := now },
   if writeOk then none else some ())

/-- A sequence of commits against the store: each entry is the
`time.Now().UnixMilli()` reading and the submitted `Config`; every
durable write succeeds. -/
def commitList (st : Config) : List (Int × Config) → Config
  | [] => st
  | (t, nc) :: rest => commitList (UpdateConfig t true st nc).1 rest

end CtrlProxy

-- ## C1: masking round-trip

namespace CtrlProxy

/-- C1 (counterexample): the masking round-trip fails as universally
stated.  For authority `example.com` and path `/a//b`, the proxy-visible
URL produced by the masking encode is
`http://proxy.local/--proxy-host--/example.com/a//b`; the catch-all
decode of its path part collapses the double slash
(`strings.ReplaceAll(newPath, "//", "/")`, `backend/proxy.go` line 66)
and recovers `(example.com, /a/b)`, not `(example.com, /a//b)`. -/
theorem C1_roundtrip_counterexample :
    decodeTarget ((encodeMasked (mkProxyOrigin false "proxy.local".toList)
        "example.com".toList "/a//b".toList []).drop
          (mkProxyOrigin false "proxy.local".toList).length) ≠
      some ("example.com".toList, "/a//b".toList) := by decide

/-- C1 (amended): for every origin authority `A` (nonempty, no slash)
and path `P` that begins with `/` and contains no empty segment (no
`//` substring), decoding the proxy-visible path produced by the
masking encode recovers exactly `(A, P)`; the query string is carried
outside the path component and passes through the decoder untouched.
Paths with a `//` are collapsed by the decoder and do not round-trip. -/
theorem C1_masking_roundtrip (A P : Str) (hAs : '/' ∉ A)
    (hP : ∃ r, P = '/' :: r) (hPP : hasDoubleSlash P = false) :
    decodeTarget (proxyHostPrefix ++ A ++ P) = some (A, P) := by
  obtain ⟨r, rfl⟩ := hP
  have hpre : proxyHostPrefix.isPrefixOf (proxyHostPrefix ++ A ++ '/' :: r) = true := by
    rw [List.isPrefixOf_iff_prefix, List.append_assoc]
    exact List.prefix_append _ _
  unfold decodeTarget
  rw [if_pos hpre, List.append_assoc, List.drop_left]
  rw [goSplit_append_sep '/' A r hAs]
  simp only []
  rw [goJoin_goSplit]
  rw [collapseSlash_of_no_double ('/' :: r) hPP]

/-- C1 witness: a concrete masked path round-trips. -/
theorem C1_roundtrip_witness :
    decodeTarget (proxyHostPrefix ++ "cdn.example.com".toList ++ "/assets/app.css".toList) =
      some ("cdn.example.com".toList, "/assets/app.css".toList) :=
  C1_masking_roundtrip "cdn.example.com".toList "/assets/app.css".toList
    (by decide) ⟨"assets/app.css".toList, by decide⟩ (by decide)

end CtrlProxy

-- ## Helper lemmas about UpdateConfig

namespace CtrlProxy

theorem UpdateConfig_lastModified (now : Int) (w : Bool) (st nc : Config) :
    (UpdateConfig now w st nc).1.lastModified = now := rfl

theorem UpdateConfig_targetURL (now : Int) (w : Bool) (st nc : Config) :
    (UpdateConfig now w st nc).1.targetURL = nc.targetURL := by
  show (if _ then _ else _ : Config).targetURL = _
  split <;> rfl

theorem UpdateConfig_err (now : Int) (w : Bool) (st nc : Config) :
    (UpdateConfig now w st nc).2 = if w then none else some () := rfl

theorem cap_eq_take (l : List HistoryItem) :
    (if l.length > 20 then l.take 20 else l) = l.take 20 := by
  split
  · rfl
  · exact (List.take_of_length_le (by omega)).symm

theorem UpdateConfig_history_change (now : Int) (w : Bool) (st nc : Config)
    (h1 : nc.targetURL ≠ []) (h2 : nc.targetURL ≠ st.targetURL) :
    (UpdateConfig now w st nc).1.history =
      List.take 20 ({ url := nc.targetURL, timestamp := now } ::
        st.history.filter (fun item => item.url ≠ nc.targetURL)) := by
  show (if _ then _ else _ : Config).history = _
  rw [if_pos ⟨h1, h2⟩]
  exact cap_eq_take _

theorem UpdateConfig_history_nochange (now : Int) (w : Bool) (st nc : Config)
    (h : nc.targetURL = [] ∨ nc.targetURL = st.targetURL) :
    (UpdateConfig now w st nc).1.history = nc.history := by
  show (if _ then _ else _ : Config).history = _
  rw [if_neg]
  intro ⟨h1, h2⟩
  cases h with
  | inl h => exact h1 h
  | inr h => exact h2 h

end CtrlProxy

-- ## C3: version monotonicity

namespace CtrlProxy

/-- C3 (counterexample): `lastModified` does not strictly increase over
every pair of successful commits.  `UpdateConfig` stamps the config
with `time.Now().UnixMilli()`, so two commits falling in the same
millisecond (clock reading 1000 both times) carry equal stamps and the
second is not greater than the first. -/
theorem C3_monotonicity_counterexample :
    ¬ ((UpdateConfig 1000 true
          (UpdateConfig 1000 true (defaultConfig 0)
            { defaultConfig 0 with targetURL := "https://a.example/".toList }).1
          { defaultConfig 0 with targetURL := "https://b.example/".toList }).1.lastModified >
        (UpdateConfig 1000 true (defaultConfig 0)
          { defaultConfig 0 with targetURL := "https://a.example/".toList }).1.lastModified) := by
  decide

/-- C3 (amended): each successful commit stamps `lastModified` with the
commit-time clock reading, so for two commits C1 then C2 the stamp
strictly increases whenever the second commit observes a strictly
larger `time.Now().UnixMilli()` reading than the first (not guaranteed
for commits within the same millisecond). -/
theorem C3_version_monotonic (t1 t2 : Int) (w1 w2 : Bool) (st nc1 nc2 : Config)
    (h : t1 < t2) :
    (UpdateConfig t2 w2 (UpdateConfig t1 w1 st nc1).1 nc2).1.lastModified >
      (UpdateConfig t1 w1 st nc1).1.lastModified := by
  rw [UpdateConfig_lastModified, UpdateConfig_lastModified]
  exact h

/-- C3 witness: two commits one millisecond apart. -/
theorem C3_version_monotonic_witness :
    (UpdateConfig 1001 true (UpdateConfig 1000 true (defaultConfig 0)
        { defaultConfig 0 with targetURL := "https://a.example/".toList }).1
      { defaultConfig 0 with targetURL := "https://b.example/".toList }).1.lastModified >
      (UpdateConfig 1000 true (defaultConfig 0)
        { defaultConfig 0 with targetURL := "https://a.example/".toList }).1.lastModified :=
  C3_version_monotonic 1000 1001 true true (defaultConfig 0)
    { defaultConfig 0 with targetURL := "https://a.example/".toList }
    { defaultConfig 0 with targetURL := "https://b.example/".toList } (by decide)

end CtrlProxy

-- ## C6: commit atomicity on persistence failure

namespace CtrlProxy

/-- C6 (counterexample): when the durable write fails, the commit does
return an explicit error, but the in-memory `Config` *has* been
updated: `UpdateConfig` assigns `config = newConfig` before calling
`saveConfigInternal`, so after a failed write (here at clock 1000) the
in-memory target URL is the newly submitted one, diverging from disk. -/
theorem C6_atomicity_counterexample :
    (UpdateConfig 1000 false (defaultConfig 0)
        { defaultConfig 0 with targetURL := "https://a.example/".toList }).2 = some () ∧
      (UpdateConfig 1000 false (defaultConfig 0)
          { defaultConfig 0 with targetURL := "https://a.example/".toList }).1.targetURL =
        "https://a.example/".toList ∧
      (UpdateConfig 1000 false (defaultConfig 0)
          { defaultConfig 0 with targetURL := "https://a.example/".toList }).1.targetURL ≠
        (defaultConfig 0).targetURL := by
  decide

/-- C6 (amended): a failed durable write is surfaced to the caller as
an explicit error, but the in-memory `Config` is updated to the new
value regardless of the write outcome (the same state as on success),
so in-memory and on-disk state can diverge after a failed commit. -/
theorem C6_commit_failure_behavior (t : Int) (w : Bool) (st nc : Config) :
    (UpdateConfig t w st nc).1 = (UpdateConfig t true st nc).1 ∧
      ((UpdateConfig t w st nc).2 = if w then none else some ()) :=
  ⟨rfl, rfl⟩

end CtrlProxy

-- ## C4: loop prevention

namespace CtrlProxy

/-- Outcome of the entry checks of the proxy catch-all handler in
`app.js` (lines 218-228), before any upstream fetch: a 500
configuration-error page when the configured target URL contains the
inbound `Host` (line 222), a 500 invalid-URL page when the target URL
does not parse, otherwise the pipeline proceeds (blocklist, then
fetch). -/
inductive EntryOutcome where
  | loopError
  | proceed
  deriving DecidableEq, Repr

/-- The loop check of the Node catch-all handler, `app.js` line 222:
`config.targetUrl.includes(proxyHost)` answers the request with a 500
configuration-error page before any upstream fetch.  (The Go handler
in `backend/proxy.go` performs no such check.) -/
def nodeProxyEntry (targetUrl proxyHost : Str) : EntryOutcome :=
  if containsSub targetUrl proxyHost then .loopError else .proceed

/-- C4 (counterexample): committing a `Config` whose `targetUrl`
authority equals the proxy's own external authority (`proxy.local`) is
*not* rejected: `UpdateConfig` performs no validation of the target
URL, returns no error, and stores the looping URL. -/
theorem C4_commit_not_rejected :
    (UpdateConfig 1000 true (defaultConfig 0)
        { defaultConfig 0 with targetURL := "http://proxy.local/".toList }).2 = none ∧
      (UpdateConfig 1000 true (defaultConfig 0)
          { defaultConfig 0 with targetURL := "http://proxy.local/".toList }).1.targetURL =
        "http://proxy.local/".toList := by
  decide

/-- C4 (amended): the commit path performs no loop validation (a commit
with any target URL succeeds whenever the durable write succeeds);
loop prevention happens at request time in the Node handler, which
answers with a 500 configuration-error response and attempts no
upstream fetch whenever the configured target URL contains the
proxy's inbound `Host` as a substring — in particular whenever the
target authority equals the proxy's own authority. -/
theorem C4_loop_prevention_request_time :
    (∀ (pre post proxyHost : Str),
        nodeProxyEntry (pre ++ proxyHost ++ post) proxyHost = .loopError) ∧
      (∀ (t : Int) (st nc : Config), (UpdateConfig t true st nc).2 = none) := by
  constructor
  · intro pre post proxyHost
    unfold nodeProxyEntry
    rw [if_pos (containsSub_of_middle pre proxyHost post)]
  · intro t st nc
    rfl

end CtrlProxy

-- ## C5: history invariant

namespace CtrlProxy

theorem take_append_take (n : Nat) (l m : List Str) :
    List.take n (l ++ List.take n m) = List.take n (l ++ m) := by
  rw [List.take_append_eq_append_take, List.take_append_eq_append_take,
    List.take_take, Nat.min_eq_left (Nat.sub_le _ _)]

theorem head?_take {α : Type} (n : Nat) (h : 0 < n) (l : List α) :
    (List.take n l).head? = l.head? := by
  cases l with
  | nil => simp
  | cons a as =>
    cases n with
    | zero => omega
    | succ m => simp

/-- URL projection of a history list. -/
def histURLs (h : List HistoryItem) : List Str := h.map HistoryItem.url

/-- URL projection of a commit sequence. -/
def commitURLs (ps : List (Int × Config)) : List Str :=
  ps.map (fun p => p.2.targetURL)

/-- Shape of the history after a sequence of URL-changing commits:
when every submitted target URL is nonempty, the URLs are pairwise
distinct, none of them already sits in the stored history, the first
differs from the stored target URL, and the stored history holds at
most 20 items, the resulting history is the most-recent-first list of
the committed URLs (over the prior history) truncated to 20. -/
theorem commitList_history_spec :
    ∀ (ps : List (Int × Config)) (st : Config),
      (∀ p ∈ ps, p.2.targetURL ≠ []) →
      (commitURLs ps).Nodup →
      (∀ p ∈ ps, p.2.targetURL ∉ histURLs st.history) →
      (∀ p, ps.head? = some p → p.2.targetURL ≠ st.targetURL) →
      st.history.length ≤ 20 →
      histURLs (commitList st ps).history =
        List.take 20 ((commitURLs ps).reverse ++ histURLs st.history)
  | [], st, _, _, _, _, hlen => by
    simp only [commitList, commitURLs, List.map_nil, List.reverse_nil,
      List.nil_append]
    exact (List.take_of_length_le (by simpa [histURLs] using hlen)).symm
  | (t, nc) :: rest, st, hne, hnd, hfresh, hfirst, hlen => by
    have hu1 : nc.targetURL ≠ [] := hne _ (List.mem_cons_self _ _)
    have hu2 : nc.targetURL ≠ st.targetURL := hfirst _ rfl
    have hnd' : (nc.targetURL :: commitURLs rest).Nodup := hnd
    have hndrest : (commitURLs rest).Nodup := (List.nodup_cons.mp hnd').2
    have hnotin : nc.targetURL ∉ commitURLs rest := (List.nodup_cons.mp hnd').1
    have hfilter :
        st.history.filter (fun item => item.url ≠ nc.targetURL) = st.history := by
      rw [List.filter_eq_self]
      intro a ha
      have : a.url ∈ histURLs st.history := List.mem_map_of_mem _ ha
      have hne' : a.url ≠ nc.targetURL := by
        intro heq
        exact hfresh _ (List.mem_cons_self _ _) (heq ▸ this)
      simpa using hne'
    have hhist :
        (UpdateConfig t true st nc).1.history =
          List.take 20 ({ url := nc.targetURL, timestamp := t } :: st.history) := by
      rw [UpdateConfig_history_change t true st nc hu1 hu2, hfilter]
    have hurls :
        histURLs (UpdateConfig t true st nc).1.history =
          List.take 20 (nc.targetURL :: histURLs st.history) := by
      rw [hhist]
      simp [histURLs, List.map_take]
    have ihres :=
      commitList_history_spec rest (UpdateConfig t true st nc).1
        (fun p hp => hne p (List.mem_cons_of_mem _ hp))
        hndrest
        (by
          intro p hp hmem
          rw [hurls] at hmem
          have hmem' : p.2.targetURL ∈ nc.targetURL :: histURLs st.history :=
            List.take_subset _ _ hmem
          cases List.mem_cons.mp hmem' with
          | inl h =>
            exact hnotin (h ▸ List.mem_map_of_mem (fun p => p.2.targetURL) hp)
          | inr h =>
            exact hfresh p (List.mem_cons_of_mem _ hp) h)
        (by
          intro p hp
          rw [UpdateConfig_targetURL]
          intro heq
          cases rest with
          | nil => simp at hp
          | cons q qs =>
            have : p ∈ q :: qs := by
              simp at hp
              simp [hp]
            exact hnotin (heq ▸ List.mem_map_of_mem (fun p => p.2.targetURL) this))
        (by rw [hhist]; exact (List.length_take_le _ _))
    show histURLs (commitList (UpdateConfig t true st nc).1 rest).history = _
    rw [ihres, hurls]
    rw [take_append_take]
    congr 1
    simp [commitURLs, List.reverse_cons, List.append_assoc]
  termination_by ps => ps.length

end CtrlProxy

-- ## C5 theorems

namespace CtrlProxy

set_option maxHeartbeats 1000000 in
/-- C5 (counterexample): the history invariant fails for a sequence of
commits that contains more than 20 distinct target-URL changes.  After
21 commits to pairwise-distinct URLs `u01..u21` (history then holds 20
entries), one further commit that does *not* change the target URL
(resubmitting `u21`) but carries an empty `history` field stores that
submitted history verbatim (`config = newConfig`, the no-change branch
of `UpdateConfig`), leaving the history empty rather than of length 20
with the most recent URL at index 0. -/
theorem C5_history_counterexample :
    ((commitList (defaultConfig 0)
        (["u01", "u02", "u03", "u04", "u05", "u06", "u07", "u08", "u09", "u10", "u11", "u12", "u13", "u14", "u15", "u16", "u17", "u18", "u19", "u20", "u21", "u21"].map
          (fun s => ((0 : Int),
            ({ defaultConfig 0 with targetURL := s.toList } : Config))))).history).length ≠
      20 := by
  decide

/-- C5 (amended): (a) after any sequence of more than 20 commits to
pairwise-distinct nonempty target URLs — the first differing from the
stored target, none already in the (initially empty) history — the
history has exactly 20 entries and the most recently committed URL is
at index 0; (b) a URL-changing commit whose URL is already present
moves it to index 0 and leaves exactly one entry with that URL;
(c) a commit that does not change the target URL (empty or unchanged
submitted URL) stores the caller-submitted history verbatim, so such
commits insert nothing themselves but can drop entries. -/
theorem C5_history_invariant :
    (∀ (ps : List (Int × Config)) (st : Config),
        st.history = [] →
        (∀ p ∈ ps, p.2.targetURL ≠ []) →
        (commitURLs ps).Nodup →
        (ps.head?.map (fun p => p.2.targetURL)) ≠ some st.targetURL →
        20 < ps.length →
        (commitList st ps).history.length = 20 ∧
          (commitList st ps).history.head?.map HistoryItem.url =
            (commitURLs ps).getLast?) ∧
      (∀ (t : Int) (w : Bool) (st nc : Config),
        nc.targetURL ≠ [] → nc.targetURL ≠ st.targetURL →
        (UpdateConfig t w st nc).1.history.head?.map HistoryItem.url =
            some nc.targetURL ∧
          (UpdateConfig t w st nc).1.history.countP
            (fun i => i.url = nc.targetURL) = 1) ∧
      (∀ (t : Int) (w : Bool) (st nc : Config),
        nc.targetURL = [] ∨ nc.targetURL = st.targetURL →
        (UpdateConfig t w st nc).1.history = nc.history) := by
  refine ⟨?_, ?_, ?_⟩
  · intro ps st hempty hne hnd hfirst hlen
    have hurls := commitList_history_spec ps st hne hnd
      (by intro p _ hmem; rw [hempty] at hmem; simp [histURLs] at hmem)
      (by
        intro p hp heq
        apply hfirst
        rw [hp]
        simp [heq])
      (by rw [hempty]; simp)
    rw [hempty] at hurls
    simp only [histURLs, List.map_nil, List.append_nil] at hurls
    constructor
    · have : ((commitList st ps).history.map HistoryItem.url).length = 20 := by
        rw [hurls, List.length_take, List.length_reverse]
        simp only [commitURLs, List.length_map]
        omega
      simpa using this
    · have hh : ((commitList st ps).history.map HistoryItem.url).head? =
          (commitURLs ps).getLast? := by
        rw [hurls, head?_take 20 (by omega), List.head?_reverse]
      rw [List.head?_map] at hh
      exact hh
  · intro t w st nc h1 h2
    rw [UpdateConfig_history_change t w st nc h1 h2]
    constructor
    · rw [head?_take 20 (by omega)]
      rfl
    · rw [List.take_succ_cons, List.countP_cons]
      have hz : (st.history.filter
          (fun item => item.url ≠ nc.targetURL)).countP
            (fun i => i.url = nc.targetURL) = 0 := by
        rw [List.countP_eq_zero]
        intro a ha
        have := (List.mem_filter.mp ha).2
        simp only [decide_not] at this ⊢
        simpa using this
      have hle : (List.take 19 (st.history.filter
            (fun item => item.url ≠ nc.targetURL))).countP
              (fun i => i.url = nc.targetURL) ≤
          (st.history.filter
            (fun item => item.url ≠ nc.targetURL)).countP
              (fun i => i.url = nc.targetURL) :=
        (List.take_sublist 19 _).countP_le _
      rw [hz] at hle
      have : (List.take 19 (st.history.filter
          (fun item => item.url ≠ nc.targetURL))).countP
            (fun i => i.url = nc.targetURL) = 0 := Nat.le_zero.mp hle
      rw [this]
      simp
  · intro t w st nc h
    exact UpdateConfig_history_nochange t w st nc h

/-- Concrete starting configuration for the C5 witness: empty history,
target URL `x`. -/
def c5WitnessStart : Config := ⟨"x".toList, false, 50, [], [], 0, []⟩

/-- Concrete commit sequence for the C5 witness: 21 pairwise-distinct
single-letter target URLs. -/
def c5WitnessCommits : List (Int × Config) :=
  ["a", "b", "c", "d", "e", "f", "g", "h", "i", "j", "k", "l", "m",
      "n", "o", "p", "q", "r", "s", "t", "u"].map
    (fun s => ((0 : Int), (⟨s.toList, false, 50, [], [], 0, []⟩ : Config)))

set_option maxHeartbeats 1000000 in
/-- C5 witness: 21 distinct-URL commits starting from an empty-history
configuration leave exactly 20 entries with the last committed URL in
front. -/
theorem C5_history_invariant_witness :
    ((commitList c5WitnessStart c5WitnessCommits).history).length = 20 ∧
      ((commitList c5WitnessStart c5WitnessCommits).history).head?.map
          HistoryItem.url =
        (commitURLs c5WitnessCommits).getLast? :=
  C5_history_invariant.1 c5WitnessCommits c5WitnessStart rfl
    (by decide) (by decide) (by decide) (by decide)

end CtrlProxy

-- ## URL parsing and resolution (model of Go net/url as used by the proxy)

namespace CtrlProxy

/-- `strings.Cut s [c]`: text before the first occurrence of `c`, and
`some` of the text after it, or `none` when `c` does not occur. -/
def goCut (c : Char) : Str → Str × Option Str
  | [] => ([], none)
  | x :: rest =>
    if x = c then ([], some rest)
    else
      match goCut c rest with
      | (before, after) => (x :: before, after)

/-- `strings.LastIndex s [c]`. -/
def lastIndexOf (c : Char) : Str → Option Nat
  | [] => none
  | x :: xs =>
    match lastIndexOf c xs with
    | some i => some (i + 1)
    | none => if x = c then some 0 else none

/-- A parsed URL reference: the four components of Go's `url.URL` that
the proxy reads (`Scheme`, `Host`, `Path`, `RawQuery`); the empty
string denotes an absent component, as in Go. -/
structure URLRef where
  scheme : Str
  host : Str
  path : Str
  rawQuery : Str
  deriving DecidableEq, Repr

/-- Model of Go `net/url.getScheme`: a scheme is a leading run of
letters (digits and `+`/`-`/`.` allowed after the first character)
terminated by `:`; a leading `:` is a parse error (`none`); anything
else means no scheme and the input is returned whole. -/
def getSchemeAux (orig : Str) : Str → Str → Bool → Option (Str × Str)
  | _, [], _ => some ([], orig)
  | acc, c :: rest, first =>
    if ('a' ≤ c ∧ c ≤ 'z') ∨ ('A' ≤ c ∧ c ≤ 'Z') then
      getSchemeAux orig (c :: acc) rest false
    else if ('0' ≤ c ∧ c ≤ '9') ∨ c = '+' ∨ c = '-' ∨ c = '.' then
      if first then some ([], orig) else getSchemeAux orig (c :: acc) rest false
    else if c = ':' then
      if first then none else some (acc.reverse, rest)
    else some ([], orig)

def getScheme (s : Str) : Option (Str × Str) := getSchemeAux s [] s true

/-- The ASCII characters Go's `shouldEscape(c, encodeHost)` leaves
unescaped in a registered-name host — letters, digits, the unreserved
marks `-_.~`, the sub-delims, and `:` `[` `]` `<` `>` `\"` — plus raw
non-ASCII characters, which `parseHost` accepts.  (`Char.ofNat 39` is
the apostrophe sub-delim.)  Everything else (space, `@`, `%`, control
characters, ...) makes Go's `parseHost` fail with `InvalidHostError`
or an escape error. -/
def isHostChar (c : Char) : Bool :=
  decide (('a' ≤ c ∧ c ≤ 'z') ∨ ('A' ≤ c ∧ c ≤ 'Z') ∨ ('0' ≤ c ∧ c ≤ '9') ∨
    c ∈ ['-', '_', '.', '~', '!', '$', '&', Char.ofNat 39, '(', ')', '*', '+',
      ',', ';', '=', ':', '<', '>', '\"'] ∨
    0x80 ≤ c.toNat)

/-- Model of Go `net/url.parseHost` validation for registered-name
hosts: every character must be one `parseHost` accepts, and when a `:`
occurs, everything after the *last* `:` must be decimal digits
(`validOptionalPort`).  IPv6 literals (`[...]`) and percent-escapes
(which Go admits for non-ASCII bytes only) are out of this model and
rejected. -/
def validHost (host : Str) : Bool :=
  host.all isHostChar &&
    !(host.contains '[' || host.contains ']') &&
    (match lastIndexOf ':' host with
     | none => true
     | some i => (host.drop (i + 1)).all (fun c => decide ('0' ≤ c ∧ c ≤ '9')))

/-- Model of Go `net/url.Parse` restricted to the hierarchical URL
references the proxy feeds it (`Location` header values and body
references).  Faithful to the Go parser for: control-character
rejection, fragment stripping at the first `#`, scheme extraction and
lowercasing, query split at the first `?`, the
colon-in-first-segment error for schemeless relative paths, the
`//authority` split at the first `/`, and host/port validation
(`parseHost` via `validHost`).  Deliberately out of model (all
returned as `none` although Go accepts some of them): opaque URIs
(`scheme:` not followed by `/`), userinfo (`user@host`), IPv6 literal
hosts, and percent-escapes in hosts. -/
def parseURL (s : Str) : Option URLRef :=
  if s.any (fun c => c.toNat < 0x20 ∨ c.toNat = 0x7f) then none
  else
    match getScheme (goCut '#' s).1 with
    | none => none
    | some (scheme0, rest1) =>
      let scheme := scheme0.map Char.toLower
      let rest2 := (goCut '?' rest1).1
      let rawQuery := ((goCut '?' rest1).2).getD []
      if rest2.head? ≠ some '/' then
        if scheme ≠ [] then none
        else if ((goCut '/' rest2).1).contains ':' then none
        else some ⟨scheme, [], rest2, rawQuery⟩
      else if "//".toList.isPrefixOf rest2 ∧
          (scheme ≠ [] ∨ ¬("///".toList.isPrefixOf rest2)) then
        if validHost ((rest2.drop 2).span (fun c => c ≠ '/')).1 then
          some ⟨scheme, ((rest2.drop 2).span (fun c => c ≠ '/')).1,
            ((rest2.drop 2).span (fun c => c ≠ '/')).2, rawQuery⟩
        else none
      else some ⟨scheme, [], rest2, rawQuery⟩

/-- One element step of Go `net/url.resolvePath`'s segment loop: `.`
is dropped (clearing `first`), `..` pops the last written segment from
`dst`, anything else is appended (with a `/` separator unless it is
the first write). -/
def resolveStep (elem dst : Str) (first : Bool) : Str × Bool :=
  if elem = ['.'] then (dst, false)
  else if elem = ['.', '.'] then
    match lastIndexOf '/' (dst.drop 1) with
    | none => (['/'], true)
    | some i => ('/' :: (dst.drop 1).take i, first)
  else (dst ++ (if first then [] else ['/']) ++ elem, false)

/-- The `strings.Cut` loop of Go `net/url.resolvePath`, iterated over
the `/`-separated elements; returns the accumulated `dst` and the last
element processed. -/
def resolveSegs : List Str → Str → Bool → Str × Str
  | [], dst, _ => (dst, [])
  | [e], dst, first => ((resolveStep e dst first).1, e)
  | e :: e2 :: rest, dst, first =>
    resolveSegs (e2 :: rest) (resolveStep e dst first).1 (resolveStep e dst first).2

/-- Model of Go `net/url.resolvePath` (RFC 3986 merge + dot-segment
removal): merge `ref` onto the directory of `base` (or take `ref`
whole when absolute), then clean `.`/`..` segments, append a trailing
`/` when the last segment was a dot segment, and strip the doubled
leading slash. -/
def resolvePath (base ref : Str) : Str :=
  let full :=
    if ref = [] then base
    else if ref.head? ≠ some '/' then
      (match lastIndexOf '/' base with
       | some i => base.take (i + 1)
       | none => []) ++ ref
    else ref
  if full = [] then []
  else
    match resolveSegs (goSplit '/' full) ['/'] true with
    | (dst, lastElem) =>
      match (if lastElem = ['.'] ∨ lastElem = ['.', '.'] then dst ++ ['/'] else dst) with
      | '/' :: '/' :: rest => '/' :: rest
      | d => d

/-- Model of Go `(*url.URL).ResolveReference` over the four modelled
components (`User`, `Opaque`, `ForceQuery` and fragments are outside
the model): an absolute or network-path reference keeps its own host,
path and query (inheriting the base scheme when absent); a relative
reference keeps the base scheme and host, merges the paths, and
inherits the base query exactly when the reference has neither path
nor query. -/
def resolveReference (base ref : URLRef) : URLRef :=
  if ref.scheme ≠ [] ∨ ref.host ≠ [] then
    ⟨if ref.scheme = [] then base.scheme else ref.scheme,
      ref.host, resolvePath ref.path [], ref.rawQuery⟩
  else
    ⟨base.scheme, base.host, resolvePath base.path ref.path,
      if ref.path = [] ∧ ref.rawQuery = [] then base.rawQuery else ref.rawQuery⟩

end CtrlProxy

-- ## Response transformer (`backend/proxy.go` ModifyResponse) and rewrite

namespace CtrlProxy

/-- The headers and body of an upstream response that `ModifyResponse`
(`backend/proxy.go` lines 148-345) reads or writes.  `location` models
`resp.Header.Get("Location")` (empty string = header absent); the
three `Bool`s model presence of the stripped security headers. -/
structure UpstreamResponse where
  statusCode : Nat
  location : Str
  contentType : Str
  cspHeader : Bool
  cspReportHeader : Bool
  xfoHeader : Bool
  body : Str
  deriving DecidableEq, Repr

/-- The text test of `ModifyResponse` (`backend/proxy.go` lines
179-182): the Content-Type contains `text/html`, `text/css` or
`javascript`. -/
def isTextContentType (ct : Str) : Bool :=
  containsSub ct "text/html".toList || containsSub ct "text/css".toList ||
    containsSub ct "javascript".toList

/-- Redirect interception, `backend/proxy.go` lines 155-171: on a 3xx
status with a nonempty `Location` that parses, resolve it against the
decoded target, re-encode it in masked form, and force status 307; on
a parse failure or missing `Location` the response is untouched. -/
def interceptRedirect (target : URLRef) (proxyOrigin : Str)
    (resp : UpstreamResponse) : UpstreamResponse :=
  if 300 ≤ resp.statusCode ∧ resp.statusCode < 400 ∧ resp.location ≠ [] then
    match parseURL resp.location with
    | some ref =>
      { resp with
        location := encodeMasked proxyOrigin (resolveReference target ref).host
          (resolveReference target ref).path (resolveReference target ref).rawQuery
        statusCode := 307 }
    | none => resp
  else resp

/-- Header sanitization, `backend/proxy.go` lines 173-176: delete
`Content-Security-Policy`, `Content-Security-Policy-Report-Only` and
`X-Frame-Options`. -/
def sanitizeHeaders (resp : UpstreamResponse) : UpstreamResponse :=
  { resp with cspHeader := false, cspReportHeader := false, xfoHeader := false }

/-- The guarded rewriting block of `ModifyResponse` (`backend/proxy.go`
lines 184-343): only when the content type is textual *and* the status
code is exactly 200 is the body replaced by the transformed body;
`transformBody` stands for the block's decompress + regex rewriting +
script/style injection pipeline, which the claims below do not open.
Off the guard the body bytes pass through unchanged. -/
def applyTextRewrite (transformBody : Str → Str)
    (resp : UpstreamResponse) : UpstreamResponse :=
  if isTextContentType resp.contentType ∧ resp.statusCode = 200 then
    { resp with body := transformBody resp.body }
  else resp

/-- `ModifyResponse` (`backend/proxy.go` lines 148-345) as the ordered
composition of its three response-mutating steps.  (The cookie capture
of lines 150-153 mutates only the jar, not the response.) -/
def modifyResponse (target : URLRef) (proxyOrigin : Str)
    (transformBody : Str → Str) (resp : UpstreamResponse) : UpstreamResponse :=
  applyTextRewrite transformBody (sanitizeHeaders (interceptRedirect target proxyOrigin resp))

/-- The skip guard of the `rewrite` closure (`backend/proxy.go` line
214): empty references and `data:` / `#` / `mailto:` references are
returned untouched. -/
def skipRewrite (u : Str) : Bool :=
  u.isEmpty || "data:".toList.isPrefixOf u || "#".toList.isPrefixOf u ||
    "mailto:".toList.isPrefixOf u

/-- The `rewrite` closure of `ModifyResponse` (`backend/proxy.go`
lines 213-235), `rewriteUrl` in `app.js` lines 351-364: skip the
special schemes, skip references already containing the proxy prefix,
skip unparseable references, otherwise resolve against the target and
emit the masked form. -/
def rewriteUrl (target : URLRef) (proxyOrigin : Str) (u : Str) : Str :=
  if skipRewrite u then u
  else if containsSub u proxyHostPrefix then u
  else
    match parseURL u with
    | none => u
    | some ref =>
      encodeMasked proxyOrigin (resolveReference target ref).host
        (resolveReference target ref).path (resolveReference target ref).rawQuery

end CtrlProxy

-- ## Blocklist filter (`backend/proxy.go` isBlocked and lines 102-115)

namespace CtrlProxy

/-- The static deny list of `isBlocked` (`backend/proxy.go` lines
353-359). -/
def blockedSubstrings : List Str :=
  ["pagead2.googlesyndication.com", "google-analytics.com",
    "googletagmanager.com", "doubleclick.net", "intercom.io"].map String.toList

/-- `isBlocked` (`backend/proxy.go` lines 351-366): substring match of
the argument against the deny list. -/
def isBlocked (host : Str) : Bool :=
  blockedSubstrings.any (fun b => containsSub host b)

/-- The synthetic response written by the blocklist branch. -/
structure StubResponse where
  status : Nat
  contentType : Option Str
  body : Str
  deriving DecidableEq, Repr

/-- What the handler does after the blocklist check: answer with a
stub and return, or go on to create the reverse proxy and fetch. -/
inductive HandlerAction where
  | stub (r : StubResponse)
  | fetch (target : URLRef)
  deriving DecidableEq, Repr

/-- The blocklist branch of `newProxyHandler` (`backend/proxy.go`
lines 102-115): when the decoded target's host or path matches the
deny list, write a content-type-appropriate stub — a JS comment for
`.js` paths, a CSS comment for `.css` paths, an empty body otherwise —
and return without fetching.  Go sends status 200 in all three arms
(explicitly via `WriteHeader(http.StatusOK)` for the empty arm,
implicitly on first `Write` for the other two). -/
def blocklistStep (target : URLRef) : Option StubResponse :=
  if isBlocked target.host || isBlocked target.path then
    some (if goHasSuffix target.path ".js".toList then
            ⟨200, some "application/javascript".toList, "// Blocked by proxy".toList⟩
          else if goHasSuffix target.path ".css".toList then
            ⟨200, some "text/css".toList, "/* Blocked by proxy */".toList⟩
          else ⟨200, none, []⟩)
  else none

/-- The handler's dispatch on the blocklist result (`backend/proxy.go`
lines 102-117): a blocked target short-circuits with the stub, an
unblocked one proceeds to the upstream fetch. -/
def handlerDispatch (target : URLRef) : HandlerAction :=
  match blocklistStep target with
  | some r => .stub r
  | none => .fetch target

end CtrlProxy

-- ## Upstream-failure responses (C7)

namespace CtrlProxy

/-- The upstream-error path of the Node catch-all handler (`app.js`
lines 446-452): when the upstream fetch throws (connection refused,
timeout, TLS failure, DNS failure) the handler answers `204 No
Content` if no headers have been sent yet, and nothing otherwise. -/
def nodeUpstreamErrorResponse (headersSent : Bool) : Option Nat :=
  if headersSent then none else some 204

/-- The upstream-error status of the Go handler: `newProxyHandler`
(`backend/proxy.go` line 117) builds `httputil.NewSingleHostReverseProxy`
and never sets `ErrorHandler`, so a failed upstream round trip is
answered by the Go standard library's default error handler with
`http.StatusBadGateway` = 502. -/
def goUpstreamErrorStatus : Nat := 502

end CtrlProxy

-- ## Transformer step lemmas

namespace CtrlProxy

theorem sanitizeHeaders_statusCode (r : UpstreamResponse) :
    (sanitizeHeaders r).statusCode = r.statusCode := rfl

theorem sanitizeHeaders_contentType (r : UpstreamResponse) :
    (sanitizeHeaders r).contentType = r.contentType := rfl

theorem sanitizeHeaders_body (r : UpstreamResponse) :
    (sanitizeHeaders r).body = r.body := rfl

theorem interceptRedirect_body (t : URLRef) (po : Str) (r : UpstreamResponse) :
    (interceptRedirect t po r).body = r.body := by
  unfold interceptRedirect
  split
  · split <;> rfl
  · rfl

theorem interceptRedirect_contentType (t : URLRef) (po : Str) (r : UpstreamResponse) :
    (interceptRedirect t po r).contentType = r.contentType := by
  unfold interceptRedirect
  split
  · split <;> rfl
  · rfl

theorem interceptRedirect_statusCode (t : URLRef) (po : Str) (r : UpstreamResponse) :
    (interceptRedirect t po r).statusCode = r.statusCode ∨
      (interceptRedirect t po r).statusCode = 307 := by
  unfold interceptRedirect
  split
  · split
    · exact Or.inr rfl
    · exact Or.inl rfl
  · exact Or.inl rfl

end CtrlProxy

-- ## C2: redirect downgrade

namespace CtrlProxy

end CtrlProxy

-- ## C10: rewriting applied only to 200-status text responses

namespace CtrlProxy

/-- C10: the response transformer replaces the body only when the
content type is HTML/CSS/JavaScript *and* the status is exactly 200;
a response with any other status (for example an HTML 404 page), or a
200 with a non-text content type, is delivered with its body
byte-for-byte unchanged — only header sanitization and redirect
interception apply.  Stated for every body transform `f`, so it holds
whatever the rewrite pipeline does. -/
theorem C10_rewrite_gate (target : URLRef) (po : Str) (f : Str → Str)
    (resp : UpstreamResponse)
    (h : resp.statusCode ≠ 200 ∨ isTextContentType resp.contentType = false) :
    (modifyResponse target po f resp).body = resp.body := by
  unfold modifyResponse
  have hguard : ¬ (isTextContentType
        (sanitizeHeaders (interceptRedirect target po resp)).contentType = true ∧
      (sanitizeHeaders (interceptRedirect target po resp)).statusCode = 200) := by
    rw [sanitizeHeaders_contentType, sanitizeHeaders_statusCode,
      interceptRedirect_contentType]
    intro ⟨hct, hsc⟩
    cases h with
    | inl h =>
      cases interceptRedirect_statusCode target po resp with
      | inl heq => exact h (heq ▸ hsc)
      | inr heq => omega
    | inr h => rw [h] at hct; exact absurd hct (by simp)
  unfold applyTextRewrite
  rw [if_neg hguard, sanitizeHeaders_body, interceptRedirect_body]

/-- C10 witness: an HTML 404 error page passes through byte-for-byte
even though its content type is textual. -/
theorem C10_rewrite_gate_witness :
    (modifyResponse ⟨"https".toList, "example.com".toList, "/".toList, []⟩
        (mkProxyOrigin false "proxy.local".toList) (fun _ => "INJECTED".toList)
        ⟨404, [], "text/html; charset=utf-8".toList, true, true, true,
          "<html>not found</html>".toList⟩).body =
      "<html>not found</html>".toList :=
  C10_rewrite_gate ⟨"https".toList, "example.com".toList, "/".toList, []⟩
    (mkProxyOrigin false "proxy.local".toList) (fun _ => "INJECTED".toList)
    ⟨404, [], "text/html; charset=utf-8".toList, true, true, true,
      "<html>not found</html>".toList⟩ (Or.inl (by decide))

end CtrlProxy

-- ## C8: blocklist stub correctness

namespace CtrlProxy

/-- C8: when the decoded target's host or path matches the static
blocklist, the handler performs no upstream fetch and answers HTTP 200
with the content-type-appropriate stub: the JavaScript comment
`// Blocked by proxy` as `application/javascript` for `.js` paths, the
CSS comment `/* Blocked by proxy */` as `text/css` for `.css` paths,
and an empty body otherwise. -/
theorem C8_blocklist_stub (target : URLRef)
    (h : (isBlocked target.host || isBlocked target.path) = true) :
    handlerDispatch target =
      .stub (if goHasSuffix target.path ".js".toList then
               ⟨200, some "application/javascript".toList, "// Blocked by proxy".toList⟩
             else if goHasSuffix target.path ".css".toList then
               ⟨200, some "text/css".toList, "/* Blocked by proxy */".toList⟩
             else ⟨200, none, []⟩) := by
  unfold handlerDispatch blocklistStep
  rw [if_pos h]

/-- C8 witness: a request decoded to host `www.google-analytics.com`
and path `/analytics.js` is answered with the JavaScript stub and no
fetch. -/
theorem C8_blocklist_stub_witness :
    handlerDispatch ⟨"https".toList, "www.google-analytics.com".toList,
        "/analytics.js".toList, []⟩ =
      .stub (if goHasSuffix "/analytics.js".toList ".js".toList then
               ⟨200, some "application/javascript".toList, "// Blocked by proxy".toList⟩
             else if goHasSuffix "/analytics.js".toList ".css".toList then
               ⟨200, some "text/css".toList, "/* Blocked by proxy */".toList⟩
             else ⟨200, none, []⟩) :=
  C8_blocklist_stub ⟨"https".toList, "www.google-analytics.com".toList,
    "/analytics.js".toList, []⟩ (by decide)

end CtrlProxy

-- ## C7: upstream failure swallowing

namespace CtrlProxy

/-- C7 (counterexample): the Go handler does *not* swallow upstream
fetch failures with a non-error response: with no `ErrorHandler`
installed, a failed upstream round trip is answered with 502 Bad
Gateway — a 5xx, not 204. -/
theorem C7_upstream_error_counterexample :
    goUpstreamErrorStatus ≠ 204 ∧
      500 ≤ goUpstreamErrorStatus ∧ goUpstreamErrorStatus < 600 := by
  decide

/-- C7 (amended): the Node handler swallows upstream fetch failures —
it answers 204 No Content when no headers have been sent, and sends no
status at all otherwise, so it never produces a 5xx; the Go handler,
by contrast, answers such failures with the reverse-proxy default of
502 Bad Gateway. -/
theorem C7_upstream_error_behavior :
    nodeUpstreamErrorResponse false = some 204 ∧
      (∀ b : Bool, (nodeUpstreamErrorResponse b).getD 204 = 204) ∧
      goUpstreamErrorStatus = 502 := by
  refine ⟨rfl, ?_, rfl⟩
  intro b
  cases b <;> rfl

end CtrlProxy

-- ## C9: encode skip rules and idempotence

namespace CtrlProxy

/-- C9: (i) the masking encode returns unchanged every reference that
starts with `data:`, `#` or `mailto:`, or that already contains the
`/--proxy-host--/` prefix; (ii) consequently every URL the encode
emits (`proxyOrigin + prefix + host + path + query` with the proxy
origin built by the handler) contains the prefix and is returned
unchanged when encoded again — a URL is never double-masked. -/
theorem C9_encode_skip_idempotent :
    (∀ (target : URLRef) (po u : Str),
        ("data:".toList.isPrefixOf u = true ∨ "#".toList.isPrefixOf u = true ∨
          "mailto:".toList.isPrefixOf u = true ∨
          containsSub u proxyHostPrefix = true) →
        rewriteUrl target po u = u) ∧
      (∀ (target : URLRef) (tls : Bool) (proxyHost A P Q : Str),
        rewriteUrl target (mkProxyOrigin tls proxyHost)
            (encodeMasked (mkProxyOrigin tls proxyHost) A P Q) =
          encodeMasked (mkProxyOrigin tls proxyHost) A P Q) := by
  constructor
  · intro target po u h
    unfold rewriteUrl
    by_cases hskip : skipRewrite u = true
    · rw [if_pos hskip]
    · rw [if_neg hskip]
      have hcont : containsSub u proxyHostPrefix = true := by
        rcases h with h | h | h | h
        · exact absurd (by simp only [skipRewrite, Bool.or_eq_true]; tauto) hskip
        · exact absurd (by simp only [skipRewrite, Bool.or_eq_true]; tauto) hskip
        · exact absurd (by simp only [skipRewrite, Bool.or_eq_true]; tauto) hskip
        · exact h
      rw [if_pos hcont]
  · intro target tls proxyHost A P Q
    have hskip : skipRewrite (encodeMasked (mkProxyOrigin tls proxyHost) A P Q) = false := by
      cases tls <;> rfl
    have hcont : containsSub (encodeMasked (mkProxyOrigin tls proxyHost) A P Q)
        proxyHostPrefix = true := by
      have he : encodeMasked (mkProxyOrigin tls proxyHost) A P Q =
          mkProxyOrigin tls proxyHost ++ (proxyHostPrefix ++
            (A ++ (P ++ (if Q.isEmpty then [] else '?' :: Q)))) := by
        unfold encodeMasked
        simp [List.append_assoc]
      rw [he, ← List.append_assoc (mkProxyOrigin tls proxyHost) proxyHostPrefix]
      exact containsSub_of_middle _ _ _
    unfold rewriteUrl
    rw [if_neg (by simp [hskip]), if_pos hcont]

/-- C9 witness: a `data:` reference is returned untouched. -/
theorem C9_encode_skip_witness :
    rewriteUrl ⟨"https".toList, "example.com".toList, "/".toList, []⟩
        (mkProxyOrigin false "proxy.local".toList)
        "data:image/png;base64,AA".toList =
      "data:image/png;base64,AA".toList :=
  C9_encode_skip_idempotent.1
    ⟨"https".toList, "example.com".toList, "/".toList, []⟩
    (mkProxyOrigin false "proxy.local".toList)
    "data:image/png;base64,AA".toList (Or.inl (by decide))

end CtrlProxy
